import Mathlib

/-!
# Wire-format layer of `rai/node/common.hpp`

A shallow embedding of the message header, the message type codes, the
extension-word flag positions and the endpoint hash of
`src/rai/node/common.hpp`, together with the properties stated about them.

Conventions: a `uint8_t` is a `Nat` below `2^8`, a `uint16_t` / `std::bitset<16>`
is a `Nat` below `2^16`, a `uint32_t` is a `Nat` below `2^32`, a `uint64_t` is a
`Nat` below `2^64`.  A `rai::stream` is the list of bytes still to be read; a
reader returns the decoded value together with the rest of the stream, or
`none` when the read fails.
-/

namespace rai

/-! ## Network tag and message type codes -/

/-- Modelled from the spec: the enum `rai::rai_networks` and the build constant
`rai::rai_network` are declared in a header that is not part of this file set.
The spec names the three tags (test, beta, live); the constant itself is taken
as a parameter `net` of everything that reads it. -/
inductive rai_networks where
  | rai_test_network
  | rai_beta_network
  | rai_live_network
deriving DecidableEq, Repr

/-- Modelled from the spec: `static_cast<int> (rai::rai_network)`, with the tags
numbered so that `magic[1] - 'A'` equals the tag: test = 0, beta = 1, live = 2. -/
def rai_networks.toInt : rai_networks → Int
  | .rai_test_network => 0
  | .rai_beta_network => 1
  | .rai_live_network => 2

/-- The enum `rai::message_type` (common.hpp:136-150). -/
inductive message_type where
  | invalid
  | not_a_type
  | keepalive
  | publish
  | confirm_req
  | confirm_ack
  | bulk_pull
  | bulk_push
  | frontier_req
  | bulk_pull_blocks
  | node_id_handshake
  | bulk_pull_account
deriving DecidableEq, Repr

/-- The `uint8_t` enumerator value of each `rai::message_type` (common.hpp:138-149). -/
def message_type.code : message_type → Nat
  | .invalid => 0x0
  | .not_a_type => 0x1
  | .keepalive => 0x2
  | .publish => 0x3
  | .confirm_req => 0x4
  | .confirm_ack => 0x5
  | .bulk_pull => 0x6
  | .bulk_push => 0x7
  | .frontier_req => 0x8
  | .bulk_pull_blocks => 0x9
  | .node_id_handshake => 0x0a
  | .bulk_pull_account => 0x0b

/-! ## Message header -/

/-- The data members of `rai::message_header` (common.hpp:173-177).  The member
`type` is a `rai::message_type`, an enum over `uint8_t`; it is kept as the raw
byte, since a header read from the wire can hold a byte that names no
enumerator.  `extensions` is the value of the `std::bitset<16>`. -/
structure message_header where
  version_max : Nat
  version_using : Nat
  version_min : Nat
  type : Nat
  extensions : Nat
deriving DecidableEq, Repr

/-- The value ranges of the members of a header: three `uint8_t`, a `uint8_t`
enum and a 16-bit set. -/
def message_header.wf (h : message_header) : Prop :=
  h.version_max < 256 ∧ h.version_using < 256 ∧ h.version_min < 256 ∧
    h.type < 256 ∧ h.extensions < 65536

instance (h : message_header) : Decidable h.wf := by
  unfold message_header.wf; infer_instance

/-- The constant `message_header::magic_number` (common.hpp:172), as a pair of bytes,
for the build whose `rai::rai_network` is `net`. -/
def message_header.magic_number (net : rai_networks) : Nat × Nat :=
  if net = .rai_test_network then ('R'.toNat, 'A'.toNat)
  else if net = .rai_beta_network then ('R'.toNat, 'B'.toNat)
  else ('R'.toNat, 'C'.toNat)

/-- The commented-out `ipv4_only_position` (common.hpp:178): not in use, deprecated. -/
def message_header.ipv4_only_position : Nat := 1

/-- The commented-out `bootstrap_server_position` (common.hpp:179): not in use, deprecated. -/
def message_header.bootstrap_server_position : Nat := 2

/-- The constant `message_header::bulk_pull_count_present_flag` (common.hpp:184). -/
def message_header.bulk_pull_count_present_flag : Nat := 0

/-- The constant `message_header::block_type_mask` (common.hpp:187). -/
def message_header.block_type_mask : Nat := 0x0f00

/-- The member function `message_header::valid_magic` (common.hpp:188-191).  It reads the
static constant `magic_number` only; the header `_h` it is called on is not read. -/
def message_header.valid_magic (net : rai_networks) (_h : message_header) : Bool :=
  (message_header.magic_number net).1 == 'R'.toNat
    && decide ((message_header.magic_number net).2 ≥ 'A'.toNat)
    && decide ((message_header.magic_number net).2 ≤ 'C'.toNat)

/-- The member function `message_header::valid_network` (common.hpp:192-195): the
subtraction is done in `int`.  It reads the static constant `magic_number` only. -/
def message_header.valid_network (net : rai_networks) (_h : message_header) : Bool :=
  ((message_header.magic_number net).2 : Int) - ('A'.toNat : Int) == net.toInt

/-- The constant `bulk_pull::count_present_flag` (common.hpp:320). -/
def bulk_pull.count_present_flag : Nat := message_header.bulk_pull_count_present_flag

/-- The constant `node_id_handshake::query_flag` (common.hpp:372). -/
def node_id_handshake.query_flag : Nat := 0

/-- The constant `node_id_handshake::response_flag` (common.hpp:373). -/
def node_id_handshake.response_flag : Nat := 1

/-- The flag positions that the header file declares for the extensions word. -/
def flag_positions : List Nat :=
  [message_header.bulk_pull_count_present_flag, bulk_pull.count_present_flag,
    node_id_handshake.query_flag, node_id_handshake.response_flag]

/-! ## Bit sets and byte streams -/

/-- The call `std::bitset<16>::set (pos, value)` on a set whose value is `x`: the
bit at `pos` becomes `value`; a position outside the set throws. -/
def bitset16_set (x pos : Nat) (value : Bool) : Option Nat :=
  if pos < 16 then
    some (if value then x ||| (1 <<< pos) else x &&& (0xffff ^^^ (1 <<< pos)))
  else none

/-- Little-endian value of a run of bytes. -/
def le_value : List Nat → Nat
  | [] => 0
  | b :: bs => b + 256 * le_value bs

/-! ## Header codec -/

/-- Modelled from the spec: `message_header::serialize` is declared in common.hpp:168
and defined elsewhere.  Spec 3 and 4.B: it writes the 8 header bytes in order,
magic[0], magic[1], version_max, version_using, version_min, type, and the
extensions as a little-endian `uint16_t`. -/
def message_header.serialize (net : rai_networks) (h : message_header) : List Nat :=
  [(message_header.magic_number net).1, (message_header.magic_number net).2,
    h.version_max % 256, h.version_using % 256, h.version_min % 256, h.type % 256,
    h.extensions % 256, h.extensions / 256 % 256]

/-- Modelled from the spec: `message_header::deserialize` is declared in common.hpp:169
and defined elsewhere.  Spec 4.B: it reads 8 bytes, fails on short input, and
does not validate magic or network; the two magic bytes are read and not kept,
the header has no member for them. -/
def message_header.deserialize (stream : List Nat) : Option (message_header × List Nat) :=
  match stream with
  | _m0 :: _m1 :: vmax :: vusing :: vmin :: ty :: e0 :: e1 :: rest =>
    some ({ version_max := vmax, version_using := vusing, version_min := vmin, type := ty,
            extensions := le_value [e0, e1] }, rest)
  | _ => none

/-- Modelled from the spec: `message_header::block_type` is declared in common.hpp:170
and defined elsewhere.  Spec 4.B: it extracts the block-type nibble, bits 8-11 of
the extensions, selected by `block_type_mask`.  A `rai::block_type` is kept as
its `uint8_t` value. -/
def message_header.block_type (h : message_header) : Nat :=
  (h.extensions &&& message_header.block_type_mask) >>> 8

/-- Modelled from the spec: `message_header::block_type_set` is declared in
common.hpp:171 and defined elsewhere.  Spec 4.B: it writes the nibble, leaving
the other bits intact. -/
def message_header.block_type_set (h : message_header) (t : Nat) : message_header :=
  { h with extensions :=
      (h.extensions &&& (0xffff ^^^ message_header.block_type_mask))
        ||| ((t <<< 8) &&& message_header.block_type_mask) }

/-! ## Endpoint hash -/

/-- An `boost::asio::ip::address`: a 4-byte IPv4 or a 16-byte IPv6 address, as the bytes
that `to_bytes ()` returns. -/
inductive ip_address where
  | v4 (bytes : List Nat)
  | v6 (bytes : List Nat)
deriving DecidableEq, Repr

/-- A `rai::endpoint` (common.hpp:14): an address and a 16-bit port. -/
structure endpoint where
  address : ip_address
  port : Nat
deriving DecidableEq, Repr

/-- Modelled from the spec: the state of the streaming interface of the xxhash
library (`XXH64_state_t`), which is not part of the source set.  Spec 3 says only
that a fixed fast 64-bit hash combines the bytes; the state is kept as the seed
and the bytes fed so far. -/
structure XXH64_state_t where
  seed : Nat
  input : List Nat
deriving DecidableEq, Repr

/-- Modelled from the spec: `XXH64_reset (&hash, seed)` starts a hash with no input. -/
def XXH64_reset (seed : Nat) : XXH64_state_t :=
  { seed := seed, input := [] }

/-- Modelled from the spec: `XXH64_update (&hash, data, length)` feeds more bytes. -/
def XXH64_update (st : XXH64_state_t) (data : List Nat) : XXH64_state_t :=
  { st with input := st.input ++ data }

/-- Modelled from the spec: `XXH64_digest (&hash)` is the 64-bit hash of everything fed
since the reset; the hash function of the library is the parameter `xxh64`
(seed first, then the input), reduced to a `uint64_t`. -/
def XXH64_digest (xxh64 : Nat → List Nat → Nat) (st : XXH64_state_t) : Nat :=
  xxh64 st.seed st.input % 2 ^ 64

/-- The object representation of a `uint16_t`, as `XXH64_update (&hash, &port, sizeof (port))`
reads it: two bytes in the byte order of the platform. -/
def uint16_native_bytes (big_endian : Bool) (v : Nat) : List Nat :=
  if big_endian then [v / 256 % 256, v % 256] else [v % 256, v / 256 % 256]

/-- The function `endpoint_hash_raw` (common.hpp:25-37).  The `assert` on line 27 (and the
cast `to_v6 ()`) fails for an address that is not IPv6: no value is returned. -/
def endpoint_hash_raw (xxh64 : Nat → List Nat → Nat) (big_endian : Bool) (endpoint_a : endpoint) :
    Option Nat :=
  match endpoint_a.address with
  | .v4 _ => none
  | .v6 bytes =>
    let hash0 := XXH64_reset 0
    let hash1 := XXH64_update hash0 bytes
    let hash2 := XXH64_update hash1 (uint16_native_bytes big_endian endpoint_a.port)
    some (XXH64_digest xxh64 hash2)

/-- The specialisations `endpoint_hash<8>` (common.hpp:54-61) and `endpoint_hash<4>`
(common.hpp:62-71); the primary template (common.hpp:50-53) has no call operator, so
no other size yields a value. -/
def endpoint_hash (xxh64 : Nat → List Nat → Nat) (big_endian : Bool) (size : Nat)
    (endpoint_a : endpoint) : Option Nat :=
  if size = 8 then endpoint_hash_raw xxh64 big_endian endpoint_a
  else if size = 4 then
    match endpoint_hash_raw xxh64 big_endian endpoint_a with
    | none => none
    | some big => some ((big % 2 ^ 32) ^^^ ((big >>> 32) % 2 ^ 32))
  else none

/-- The specialisation `std::hash<rai::endpoint>` (common.hpp:76-84), on a platform whose
`sizeof (size_t)` is `sizeof_size_t`. -/
def std_hash_endpoint (xxh64 : Nat → List Nat → Nat) (big_endian : Bool) (sizeof_size_t : Nat)
    (endpoint_a : endpoint) : Option Nat :=
  endpoint_hash xxh64 big_endian sizeof_size_t endpoint_a

/-! ## Theorems -/

/-- C1: the wire codes of the twelve message types are the listed values
0x00..0x0b, the map from type to code is injective, and a byte is the code of
some type exactly when it is at most 11. -/
theorem message_type_codes :
    message_type.code .invalid = 0x00 ∧ message_type.code .not_a_type = 0x01 ∧
    message_type.code .keepalive = 0x02 ∧ message_type.code .publish = 0x03 ∧
    message_type.code .confirm_req = 0x04 ∧ message_type.code .confirm_ack = 0x05 ∧
    message_type.code .bulk_pull = 0x06 ∧ message_type.code .bulk_push = 0x07 ∧
    message_type.code .frontier_req = 0x08 ∧ message_type.code .bulk_pull_blocks = 0x09 ∧
    message_type.code .node_id_handshake = 0x0a ∧
    message_type.code .bulk_pull_account = 0x0b ∧
    Function.Injective message_type.code ∧
    (∀ n : Nat, (∃ t : message_type, t.code = n) ↔ n ≤ 11) := by
  refine ⟨rfl, rfl, rfl, rfl, rfl, rfl, rfl, rfl, rfl, rfl, rfl, rfl, ?_, ?_⟩
  · intro a b hab
    cases a <;> cases b <;> first | rfl | (exact absurd hab (by decide))
  · intro n
    constructor
    · rintro ⟨t, rfl⟩
      cases t <;> decide
    · intro hn
      interval_cases n
      · exact ⟨.invalid, rfl⟩
      · exact ⟨.not_a_type, rfl⟩
      · exact ⟨.keepalive, rfl⟩
      · exact ⟨.publish, rfl⟩
      · exact ⟨.confirm_req, rfl⟩
      · exact ⟨.confirm_ack, rfl⟩
      · exact ⟨.bulk_pull, rfl⟩
      · exact ⟨.bulk_push, rfl⟩
      · exact ⟨.frontier_req, rfl⟩
      · exact ⟨.bulk_pull_blocks, rfl⟩
      · exact ⟨.node_id_handshake, rfl⟩
      · exact ⟨.bulk_pull_account, rfl⟩

/-- C3: on each network the magic number is the byte R followed by A (test),
B (beta) or C (live); the first byte is R on every network and the second
byte separates any two distinct networks. -/
theorem magic_number_per_network :
    message_header.magic_number .rai_test_network = ('R'.toNat, 'A'.toNat) ∧
    message_header.magic_number .rai_beta_network = ('R'.toNat, 'B'.toNat) ∧
    message_header.magic_number .rai_live_network = ('R'.toNat, 'C'.toNat) ∧
    (∀ net, (message_header.magic_number net).1 = 0x52) ∧
    (∀ n1 n2, (message_header.magic_number n1).2 = (message_header.magic_number n2).2 ↔
      n1 = n2) := by
  refine ⟨rfl, rfl, rfl, ?_, ?_⟩
  · intro net; cases net <;> rfl
  · intro n1 n2; cases n1 <;> cases n2 <;> decide

/-- C10: on each of the three builds (tags numbered test = 0, beta = 1,
live = 2) and for every header value, `valid_magic` and `valid_network` are
both true; neither depends on the header it is called on. -/
theorem valid_magic_network_constant :
    rai_networks.toInt .rai_test_network = 0 ∧ rai_networks.toInt .rai_beta_network = 1 ∧
    rai_networks.toInt .rai_live_network = 2 ∧
    (∀ (net : rai_networks) (h : message_header),
      message_header.valid_magic net h = true ∧ message_header.valid_network net h = true) ∧
    (∀ (net : rai_networks) (h1 h2 : message_header),
      message_header.valid_magic net h1 = message_header.valid_magic net h2 ∧
      message_header.valid_network net h1 = message_header.valid_network net h2) := by
  refine ⟨rfl, rfl, rfl, ?_, ?_⟩
  · intro net h
    cases net <;> exact ⟨rfl, rfl⟩
  · intro net h1 h2
    exact ⟨rfl, rfl⟩

/-! ### Bit-level helper lemmas -/

theorem testBit_eq_false_of_lt_of_le {x n i : Nat} (hx : x < 2 ^ n) (hi : n ≤ i) :
    Nat.testBit x i = false :=
  Nat.testBit_lt_two_pow (lt_of_lt_of_le hx (Nat.pow_le_pow_right (by decide) hi))

theorem testBit_block_type_mask (i : Nat) :
    Nat.testBit message_header.block_type_mask i = (decide (8 ≤ i) && decide (i < 12)) := by
  by_cases hi : i < 12
  · interval_cases i <;> decide
  · have h : Nat.testBit message_header.block_type_mask i = false :=
      testBit_eq_false_of_lt_of_le (n := 12) (by decide) (by omega)
    rw [h]
    simp [hi]

theorem testBit_ffff (i : Nat) : Nat.testBit 0xffff i = decide (i < 16) := by
  have h : (0xffff : Nat) = 2 ^ 16 - 1 := by decide
  rw [h, Nat.testBit_two_pow_sub_one]

theorem testBit_one_shiftLeft (p i : Nat) : Nat.testBit (1 <<< p) i = decide (p = i) := by
  rw [Nat.one_shiftLeft, Nat.testBit_two_pow]

/-- C7, as stated, fails: `node_id_handshake::response_flag` is one of the flag
positions in use and it equals the deprecated `ipv4_only` position, bit 1. -/
theorem response_flag_reuses_ipv4_only_position :
    ¬ (∀ p ∈ flag_positions,
        p ≠ message_header.ipv4_only_position ∧
        p ≠ message_header.bootstrap_server_position) := by
  intro h
  exact (h node_id_handshake.response_flag (by decide)).1 rfl

/-- C7, amended: no flag position in use equals the deprecated `bootstrap_server`
position (bit 2); `bulk_pull_count_present_flag`, `count_present_flag` and
`query_flag` also differ from the deprecated `ipv4_only` position (bit 1), while
`response_flag` is bit 1, the position `ipv4_only` had. -/
theorem deprecated_positions_amended :
    message_header.bulk_pull_count_present_flag ≠ message_header.bootstrap_server_position ∧
    bulk_pull.count_present_flag ≠ message_header.bootstrap_server_position ∧
    node_id_handshake.query_flag ≠ message_header.bootstrap_server_position ∧
    node_id_handshake.response_flag ≠ message_header.bootstrap_server_position ∧
    message_header.bulk_pull_count_present_flag ≠ message_header.ipv4_only_position ∧
    bulk_pull.count_present_flag ≠ message_header.ipv4_only_position ∧
    node_id_handshake.query_flag ≠ message_header.ipv4_only_position ∧
    node_id_handshake.response_flag = message_header.ipv4_only_position := by
  decide

/-- C4, evaluated on a live build at the header bytes 52 41 10 10 07 02 00 00
(magic of the test network): the received magic differs from the local one in
the network byte, the header is read, and `valid_magic` and `valid_network`
both answer true for it. -/
theorem valid_network_on_test_magic_at_live :
    ((0x52, 0x41) : Nat × Nat) ≠ message_header.magic_number .rai_live_network ∧
    (0x52 : Nat) = (message_header.magic_number .rai_live_network).1 ∧
    ∃ h, message_header.deserialize [0x52, 0x41, 0x10, 0x10, 0x07, 0x02, 0x00, 0x00]
          = some (h, []) ∧
      message_header.valid_magic .rai_live_network h = true ∧
      message_header.valid_network .rai_live_network h = true := by
  refine ⟨by decide, rfl, ⟨_, rfl, rfl, rfl⟩⟩

/-- C2: for every header whose members are in range, on every network,
`serialize` writes exactly the 8 bytes magic[0], magic[1], version_max,
version_using, version_min, type, extensions low byte, extensions high byte,
and `deserialize` of those bytes (whatever follows them in the stream) succeeds
with a header equal to the one serialized, leaving what follows unread. -/
theorem header_round_trip (net : rai_networks) (h : message_header) (rest : List Nat)
    (hwf : h.wf) :
    message_header.serialize net h =
      [(message_header.magic_number net).1, (message_header.magic_number net).2,
        h.version_max, h.version_using, h.version_min, h.type,
        h.extensions % 256, h.extensions / 256] ∧
    (message_header.serialize net h).length = 8 ∧
    (∀ b ∈ message_header.serialize net h, b < 256) ∧
    message_header.deserialize (message_header.serialize net h ++ rest) = some (h, rest) := by
  obtain ⟨h1, h2, h3, h4, h5⟩ := hwf
  have e1 : h.version_max % 256 = h.version_max := Nat.mod_eq_of_lt h1
  have e2 : h.version_using % 256 = h.version_using := Nat.mod_eq_of_lt h2
  have e3 : h.version_min % 256 = h.version_min := Nat.mod_eq_of_lt h3
  have e4 : h.type % 256 = h.type := Nat.mod_eq_of_lt h4
  have e5 : h.extensions / 256 % 256 = h.extensions / 256 := by omega
  have e6 : h.extensions % 256 + 256 * (h.extensions / 256) = h.extensions := by omega
  refine ⟨?_, rfl, ?_, ?_⟩
  · simp only [message_header.serialize, e1, e2, e3, e4, e5]
  · intro b hb
    simp only [message_header.serialize, List.mem_cons, List.mem_singleton,
      List.not_mem_nil, or_false] at hb
    have hm1 : (message_header.magic_number net).1 < 256 := by cases net <;> decide
    have hm2 : (message_header.magic_number net).2 < 256 := by cases net <;> decide
    rcases hb with hb | hb | hb | hb | hb | hb | hb | hb <;> subst hb <;> omega
  · cases h with
    | mk vmax vusing vmin ty ext =>
      simp only [message_header.serialize, message_header.deserialize, List.cons_append,
        List.nil_append, le_value] at *
      simp [e1, e2, e3, e4, e5, e6]

/-- Witness for C2: a publish header of version 16/16/7 with extensions 0x0301 on
the live network. -/
theorem header_round_trip_witness :
    message_header.serialize .rai_live_network
        ⟨0x10, 0x10, 0x07, message_type.code .publish, 0x0301⟩
      = [0x52, 0x43, 0x10, 0x10, 0x07, 0x03, 0x01, 0x03] ∧
    message_header.deserialize [0x52, 0x43, 0x10, 0x10, 0x07, 0x03, 0x01, 0x03, 0xaa]
      = some (⟨0x10, 0x10, 0x07, message_type.code .publish, 0x0301⟩, [0xaa]) :=
  ⟨(header_round_trip .rai_live_network
      ⟨0x10, 0x10, 0x07, message_type.code .publish, 0x0301⟩ [0xaa] (by decide)).1,
   (header_round_trip .rai_live_network
      ⟨0x10, 0x10, 0x07, message_type.code .publish, 0x0301⟩ [0xaa] (by decide)).2.2.2⟩

/-- C5: for every header whose extensions are a 16-bit word, reading the block
type and writing it back leaves the header, and so its extensions, unchanged. -/
theorem block_type_set_block_type (h : message_header) (hx : h.extensions < 65536) :
    h.block_type_set h.block_type = h ∧
    (h.block_type_set h.block_type).extensions = h.extensions ∧
    h.block_type < 16 := by
  have hext : (h.block_type_set h.block_type).extensions = h.extensions := by
    simp only [message_header.block_type_set, message_header.block_type]
    apply Nat.eq_of_testBit_eq
    intro i
    have hxi : 16 ≤ i → Nat.testBit h.extensions i = false := fun hi =>
      testBit_eq_false_of_lt_of_le (n := 16) hx hi
    simp only [Nat.testBit_or, Nat.testBit_and, Nat.testBit_xor, Nat.testBit_shiftLeft,
      Nat.testBit_shiftRight, testBit_block_type_mask, testBit_ffff]
    by_cases h8 : 8 ≤ i
    · have e : 8 + (i - 8) = i := by omega
      rw [e]
      by_cases h12 : i < 12
      · have h16 : i < 16 := by omega
        simp [h8, h12, h16]
      · by_cases h16 : i < 16
        · simp [h8, h12, h16]
        · simp [h8, h12, h16, hxi (by omega)]
    · have h12 : i < 12 := by omega
      have h16 : i < 16 := by omega
      simp [h8, h16]
  refine ⟨?_, hext, ?_⟩
  · cases h with
    | mk vmax vusing vmin ty ext =>
      simp only [message_header.block_type_set] at hext ⊢
      simp only [hext]
  · simp only [message_header.block_type, message_header.block_type_mask]
    have hle : h.extensions &&& 0x0f00 ≤ 0x0f00 := Nat.and_le_right
    rw [Nat.shiftRight_eq_div_pow]
    omega

/-- Witness for C5: the extensions word 0xabcd, whose block-type nibble is 0xb. -/
theorem block_type_set_block_type_witness :
    (message_header.block_type_set ⟨0x10, 0x10, 0x07, 0x03, 0xabcd⟩
        (message_header.block_type ⟨0x10, 0x10, 0x07, 0x03, 0xabcd⟩)).extensions = 0xabcd :=
  (block_type_set_block_type ⟨0x10, 0x10, 0x07, 0x03, 0xabcd⟩ (by decide)).2.1

/-- C6: `block_type_mask` has exactly bits 8..11 set; the named flag positions are
0, 0, 0 and 1, all within bits 0..7, and `query_flag` differs from
`response_flag`; for every 16-bit extensions word `x`, every named flag position
`p` and either value `v`, setting bit `p` to `v` succeeds, gives bit `p` the value
`v`, leaves `x AND 0x0f00` unchanged and leaves every other bit of `x`
unchanged. -/
theorem flag_independence (x p : Nat) (v : Bool) (hx : x < 65536) (hp : p ∈ flag_positions) :
    (∀ i, Nat.testBit message_header.block_type_mask i = true ↔ (8 ≤ i ∧ i ≤ 11)) ∧
    message_header.bulk_pull_count_present_flag = 0 ∧
    bulk_pull.count_present_flag = 0 ∧
    node_id_handshake.query_flag = 0 ∧
    node_id_handshake.response_flag = 1 ∧
    p ≤ 7 ∧
    node_id_handshake.query_flag ≠ node_id_handshake.response_flag ∧
    ∃ y, bitset16_set x p v = some y ∧ y < 65536 ∧
      Nat.testBit y p = v ∧
      y &&& message_header.block_type_mask = x &&& message_header.block_type_mask ∧
      (∀ i, i ≠ p → Nat.testBit y i = Nat.testBit x i) := by
  have hp1 : p ≤ 1 := by
    simp only [flag_positions, message_header.bulk_pull_count_present_flag,
      bulk_pull.count_present_flag, node_id_handshake.query_flag,
      node_id_handshake.response_flag, List.mem_cons, List.mem_singleton,
      List.not_mem_nil, or_false] at hp
    omega
  have hp16 : p < 16 := by omega
  have hxi : ∀ i, 16 ≤ i → Nat.testBit x i = false := fun i hi =>
    testBit_eq_false_of_lt_of_le (n := 16) hx hi
  have hbit : ∀ i, Nat.testBit
      (if v then x ||| (1 <<< p) else x &&& (0xffff ^^^ (1 <<< p))) i
        = if i = p then v else Nat.testBit x i := by
    intro i
    cases v
    · simp only [Bool.false_eq_true, if_false, Nat.testBit_and, Nat.testBit_xor, testBit_ffff,
        testBit_one_shiftLeft]
      by_cases hip : i = p
      · subst hip
        simp [hp16]
      · have hpi : ¬ p = i := fun e => hip e.symm
        by_cases h16 : i < 16
        · simp [hip, hpi, h16]
        · simp [hip, hpi, h16, hxi i (by omega)]
    · simp only [if_true, Nat.testBit_or, testBit_one_shiftLeft]
      by_cases hip : i = p
      · subst hip
        simp
      · have hpi : ¬ p = i := fun e => hip e.symm
        simp [hip, hpi]
  refine ⟨?_, rfl, rfl, rfl, rfl, by omega, by decide, ?_⟩
  · intro i
    rw [testBit_block_type_mask]
    simp only [Bool.and_eq_true, decide_eq_true_eq]
    omega
  · refine ⟨if v then x ||| (1 <<< p) else x &&& (0xffff ^^^ (1 <<< p)),
      by simp only [bitset16_set, hp16, if_true], ?_, ?_, ?_, ?_⟩
    · apply Nat.lt_pow_two_of_testBit (n := 16)
      intro i hi
      rw [hbit i]
      have hip : ¬ i = p := by omega
      simp only [hip, if_false]
      exact hxi i hi
    · rw [hbit p]
      simp
    · apply Nat.eq_of_testBit_eq
      intro i
      rw [Nat.testBit_and, Nat.testBit_and, hbit i, testBit_block_type_mask]
      by_cases h8 : 8 ≤ i
      · have hip : ¬ i = p := by omega
        simp [hip]
      · simp [h8]
    · intro i hip
      rw [hbit i]
      simp [hip]

/-- Witness for C6: setting `response_flag` in the word 0x0f00 gives 0x0f02. -/
theorem flag_independence_witness :
    bitset16_set 0x0f00 node_id_handshake.response_flag true = some 0x0f02 ∧
    ∃ y, bitset16_set 0x0f00 node_id_handshake.response_flag true = some y ∧ y < 65536 ∧
      Nat.testBit y node_id_handshake.response_flag = true ∧
      y &&& message_header.block_type_mask = 0x0f00 &&& message_header.block_type_mask ∧
      (∀ i, i ≠ node_id_handshake.response_flag → Nat.testBit y i = Nat.testBit 0x0f00 i) :=
  ⟨by decide,
   (flag_independence 0x0f00 node_id_handshake.response_flag true (by decide)
      (by decide)).2.2.2.2.2.2.2⟩

/-- C9: for an endpoint with an IPv6 address, `endpoint_hash_raw` returns the
64-bit hash `raw` (seed 0) of the 16 address bytes followed by the two port
bytes; `std::hash<rai::endpoint>` equals `raw` when `sizeof (size_t)` is 8 and
equals `(raw mod 2^32) XOR (raw div 2^32)` when it is 4; the 4-byte result is
below 2^32; an endpoint with the same address and port has the same hash under
both widths. -/
theorem endpoint_hash_width_fold (xxh64 : Nat → List Nat → Nat) (big_endian : Bool)
    (e : endpoint) (bytes : List Nat) (hv6 : e.address = .v6 bytes) :
    ∃ raw, endpoint_hash_raw xxh64 big_endian e = some raw ∧
      raw = xxh64 0 (bytes ++ uint16_native_bytes big_endian e.port) % 2 ^ 64 ∧
      std_hash_endpoint xxh64 big_endian 8 e = some raw ∧
      std_hash_endpoint xxh64 big_endian 4 e = some ((raw % 2 ^ 32) ^^^ (raw / 2 ^ 32)) ∧
      (raw % 2 ^ 32) ^^^ (raw / 2 ^ 32) < 2 ^ 32 ∧
      (∀ e2 : endpoint, e2.address = e.address → e2.port = e.port →
        std_hash_endpoint xxh64 big_endian 8 e2 = std_hash_endpoint xxh64 big_endian 8 e ∧
        std_hash_endpoint xxh64 big_endian 4 e2 = std_hash_endpoint xxh64 big_endian 4 e) := by
  have hraw : endpoint_hash_raw xxh64 big_endian e
      = some (xxh64 0 (bytes ++ uint16_native_bytes big_endian e.port) % 2 ^ 64) := by
    simp only [endpoint_hash_raw, hv6, XXH64_digest, XXH64_update, XXH64_reset, List.nil_append]
  have hlt : xxh64 0 (bytes ++ uint16_native_bytes big_endian e.port) % 2 ^ 64 < 2 ^ 64 :=
    Nat.mod_lt _ (by decide)
  generalize xxh64 0 (bytes ++ uint16_native_bytes big_endian e.port) % 2 ^ 64 = raw at hraw hlt
  have hhi : (raw >>> 32) % 2 ^ 32 = raw / 2 ^ 32 := by
    rw [Nat.shiftRight_eq_div_pow]
    apply Nat.mod_eq_of_lt
    omega
  refine ⟨raw, hraw, rfl, ?_, ?_, ?_, ?_⟩
  · simp only [std_hash_endpoint, endpoint_hash, if_true, hraw]
  · simp only [std_hash_endpoint, endpoint_hash, hraw, hhi, show ¬ ((4 : Nat) = 8) by decide,
      if_false, if_true]
  · apply Nat.xor_lt_two_pow
    · exact Nat.mod_lt _ (by decide)
    · omega
  · intro e2 ha hp
    have he : e2 = e := by
      cases e2; cases e; simp_all
    rw [he]
    exact ⟨rfl, rfl⟩

/-- Witness for C9: the endpoint [::1]:7075 with a stand-in hash function whose value
has bits above the low 32. -/
theorem endpoint_hash_width_fold_witness :
    std_hash_endpoint (fun seed input => seed + input.sum + 5 * 2 ^ 32) false 8
        ⟨.v6 [0, 0, 0, 0, 0, 0, 0, 0, 0, 0, 0, 0, 0, 0, 0, 1], 7075⟩
      = some (5 * 2 ^ 32 + 191) ∧
    std_hash_endpoint (fun seed input => seed + input.sum + 5 * 2 ^ 32) false 4
        ⟨.v6 [0, 0, 0, 0, 0, 0, 0, 0, 0, 0, 0, 0, 0, 0, 0, 1], 7075⟩
      = some 186 ∧
    ∃ raw, endpoint_hash_raw (fun seed input => seed + input.sum + 5 * 2 ^ 32) false
        ⟨.v6 [0, 0, 0, 0, 0, 0, 0, 0, 0, 0, 0, 0, 0, 0, 0, 1], 7075⟩ = some raw ∧
      raw = (fun seed input => seed + input.sum + 5 * 2 ^ 32) 0
        ([0, 0, 0, 0, 0, 0, 0, 0, 0, 0, 0, 0, 0, 0, 0, 1] ++ uint16_native_bytes false 7075)
          % 2 ^ 64 :=
  ⟨by decide, by decide,
   (endpoint_hash_width_fold (fun seed input => seed + input.sum + 5 * 2 ^ 32) false
      ⟨.v6 [0, 0, 0, 0, 0, 0, 0, 0, 0, 0, 0, 0, 0, 0, 0, 1], 7075⟩
      [0, 0, 0, 0, 0, 0, 0, 0, 0, 0, 0, 0, 0, 0, 0, 1] rfl).imp
      (fun _ hr => ⟨hr.1, hr.2.1⟩)⟩

end rai
